import Mathlib

/-!
# Power Rangers Character Creator — verification of the derived-stats core

Shallow embedding of the calculator, persistence and PDF-export helper
functions of the repository (src/js/constants.js, src/js/pdf-export.js and
the utility file src/unnamed/part_000), together with proofs of the spec's
claims about them.

Conventions of the embedding:
* JavaScript objects used as string-keyed maps with `|| 0` defaulted reads
  (`character.skills`, `character.essence`) are modelled as total functions
  `String → Nat` / `String → Int`.
* Rule tables (`gameData.origins`, `gameData.roles`, …) are modelled as
  `String → Option _`; `none` is JavaScript `undefined`.
* JavaScript string truthiness (`if (character.role && …)`) is modelled
  explicitly: `none` and `some ""` are both falsy.
* `Math.floor` of a quotient of integers is `Int.fdiv`.
* Only the character fields that the verified functions read are modelled.
-/

namespace PRCC

/-! ## Constants (src/js/constants.js) -/

/-- `DICE_PROGRESSION` from constants.js line 52. -/
def DICE_PROGRESSION : List String := ["-", "d2", "d4", "d6", "d8", "d10", "d12"]

/-- `ESSENCE_LIST` (the values of `ESSENCE_TYPES`), constants.js lines 58-65. -/
def ESSENCE_LIST : List String := ["Strength", "Speed", "Smarts", "Social"]

/-- `GAME_CONSTANTS.baseDefense`. -/
def baseDefense : Int := 10

/-- `GAME_CONSTANTS.basePowerCapacity`. -/
def basePowerCapacity : Int := 2

/-- `SANITIZE_MAP` from constants.js lines 216-222, as a partial function from
characters to replacement strings.  The keys are the five characters matched by
`SANITIZE_REGEX`, i.e. `< > & " '`. -/
def SANITIZE_MAP (c : Char) : Option String :=
  if c = '<' then some "&lt;"
  else if c = '>' then some "&gt;"
  else if c = '&' then some "&amp;"
  else if c = Char.ofNat 34 then some "&quot;"
  else if c = Char.ofNat 39 then some "&#39;"
  else none

/-- The five characters matched by `SANITIZE_REGEX` (`/[<>&"']/g`). -/
def sanitizeChars : List Char := ['<', '>', '&', Char.ofNat 34, Char.ofNat 39]

/-! ## sanitizeHTML (utility file, lines 20-25) -/

/-- One step of the global-regex replacement
`str.replace(SANITIZE_REGEX, char => SANITIZE_MAP[char] || char)`:
a matched character is replaced by its `SANITIZE_MAP` entry, every other
character is kept. -/
def escChar (c : Char) : List Char :=
  match SANITIZE_MAP c with
  | some r => r.data
  | none => [c]

/-- `sanitizeHTML` on lists of characters: the global single-character-class
regex replacement is a concatenation of per-character replacements. -/
def sanitizeList (l : List Char) : List Char :=
  (l.map escChar).flatten

/-- `sanitizeHTML(str)` (utility file lines 20-25), for string arguments
(the `typeof str !== 'string'` branch is outside the model). -/
def sanitizeHTML (s : String) : String :=
  String.mk (sanitizeList s.data)

/-! ## Data model

Only the fields read by the verified functions are modelled; see the header
comment for the conventions (total functions for defaulted maps, `Option` for
possibly-`undefined` references, explicit empty-string falsiness). -/

/-- One entry of `character.levelUpChoices` (a structured choice object).
`skillRanks` models the `choices.skillRanks` array: one entry per granted rank,
holding the `sr.skill` name. -/
structure LevelUpChoice where
  generalPerk : Option String := none
  skillRanks : List String := []

/-- `character.zord`. -/
structure Zord where
  name : String := ""
  teamType : Option String := none
  additionalFeatures : List String := []
  growthChoices : List (String × String) := []

/-- The character record (`DEFAULT_CHARACTER` shape), restricted to the fields
the calculator and exporter helpers read. -/
structure Character where
  name : String := ""
  level : Int := 1
  origin : Option String := none
  originEssenceChoice : Option String := none
  role : Option String := none
  roleSkillChoice : Option String := none
  essence : String → Int := fun _ => 0
  skills : String → Nat := fun _ => 0
  selectedPerks : List String := []
  levelUpChoices : List (Nat × LevelUpChoice) := []
  zord : Option Zord := none

/-- An entry of the `gameData.origins` rule table (fields read by the code). -/
structure Origin where
  name : String := ""
  startingHealth : Nat := 0
  groundMovement : Nat := 0
  languages : String := ""

/-- An entry of the `gameData.roles` rule table (fields read by the code).
`startingSkillRanks` and `essenceAdjustments` model the JavaScript objects as
entry lists (`Object.entries` order). -/
structure Role where
  name : String := ""
  startingSkillRanks : List (String × Nat) := []
  essenceAdjustments : List (String × Int) := []
  armorTraining : List String := []
  powerCapacityGrowth : String := ""

/-- An entry of the `ZORD_TEAM_TYPES` table (a rule-data global defined in the
repository's data file, outside src/; only its `features` list is read). -/
structure TeamType where
  features : List String := []

/-- The rule tables (`gameData` plus the `ZORD_TEAM_TYPES` global). -/
structure GameData where
  origins : String → Option Origin := fun _ => none
  roles : String → Option Role := fun _ => none
  zordTeamTypes : String → Option TeamType := fun _ => none

/-- Pointwise update of a string-keyed total map (`obj[k] = v`). -/
def updMap {M : Type} (f : String → M) (k : String) (v : M) : String → M :=
  fun x => if x = k then v else f x

/-! ## Calculator functions -/

/-- `getSkillDie(ranks)` (utility file lines 211-216). -/
def getSkillDie (ranks : Int) : String :=
  if ranks < 0 ∨ (DICE_PROGRESSION.length : Int) ≤ ranks then
    DICE_PROGRESSION.getD 0 ""
  else
    DICE_PROGRESSION.getD ranks.toNat ""

/-- `calculateDefense(essenceScore)` (utility file lines 223-225). -/
def calculateDefense (essenceScore : Int) : Int :=
  baseDefense + essenceScore

/-- `calculatePowerCapacity(level, capacityType)` (utility file lines 233-250).
The switch matches the exact strings of `POWER_CAPACITY_TYPES`; the `default`
branch (together with the explicit `'slow'` case) applies the slow formula. -/
def calculatePowerCapacity (level : Int) (capacityType : String) : Int :=
  if capacityType = "fast" then
    basePowerCapacity + (level - 1).fdiv 4 * 2
  else if capacityType = "moderate" then
    basePowerCapacity + (level - 1).fdiv 3
  else
    basePowerCapacity + (level - 1).fdiv 5 * 2

/-- `calculateFinalEssence(character, gameData)` (utility file lines 558-575).
Origin essence-choice bonus first (guarded by JS truthiness of the choice),
then the role's `essenceAdjustments` entries in order, each read with `|| 0`
defaulting (built into the total-map model). -/
def calculateFinalEssence (ch : Character) (gd : GameData) : String → Int :=
  let result := ch.essence
  let result :=
    match ch.originEssenceChoice with
    | some c => if c = "" then result else updMap result c (result c + 1)
    | none => result
  match ch.role with
  | some rk =>
      if rk = "" then result
      else
        match gd.roles rk with
        | some role =>
            role.essenceAdjustments.foldl
              (fun acc p => updMap acc p.1 (acc p.1 + p.2)) result
        | none => result
  | none => result

/-- `getFinalEssenceForExport(character, gameData)` (pdf-export.js lines
655-672); its body is the same computation as `calculateFinalEssence`. -/
def getFinalEssenceForExport (ch : Character) (gd : GameData) : String → Int :=
  let result := ch.essence
  let result :=
    match ch.originEssenceChoice with
    | some c => if c = "" then result else updMap result c (result c + 1)
    | none => result
  match ch.role with
  | some rk =>
      if rk = "" then result
      else
        match gd.roles rk with
        | some role =>
            role.essenceAdjustments.foldl
              (fun acc p => updMap acc p.1 (acc p.1 + p.2)) result
        | none => result
  | none => result

/-- `buildFinalSkills(character, gameData)` (pdf-export.js lines 623-650):
copy of the raw allocation, plus the role's `startingSkillRanks` entries, plus
one rank for a truthy `roleSkillChoice`, plus one rank per level-up-granted
skill entry. -/
def buildFinalSkills (ch : Character) (gd : GameData) : String → Nat :=
  let skills := ch.skills
  let skills :=
    match ch.role.bind gd.roles with
    | some role =>
        role.startingSkillRanks.foldl
          (fun acc p => updMap acc p.1 (acc p.1 + p.2)) skills
    | none => skills
  let skills :=
    match ch.roleSkillChoice with
    | some c => if c = "" then skills else updMap skills c (skills c + 1)
    | none => skills
  ch.levelUpChoices.foldl
    (fun acc lc =>
      lc.2.skillRanks.foldl (fun a n => updMap a n (a n + 1)) acc)
    skills

/-- `getMaxHealthForExport(character, gameData)` (pdf-export.js lines 677-683):
`origin?.startingHealth || 10` plus the final Conditioning ranks.  A missing
origin — and also a falsy (zero) `startingHealth` — falls back to 10. -/
def getMaxHealthForExport (ch : Character) (gd : GameData) : Nat :=
  let baseHealth :=
    match ch.origin.bind gd.origins with
    | some o => if o.startingHealth = 0 then 10 else o.startingHealth
    | none => 10
  baseHealth + buildFinalSkills ch gd "Conditioning"

/-- `startsWithL pat l` is true when `pat` is a prefix of `l`. -/
def startsWithL (pat l : List Char) : Bool :=
  match pat, l with
  | [], _ => true
  | _ :: _, [] => false
  | p :: ps, c :: cs => p = c && startsWithL ps cs

/-- `containsSubL l pat` is true when `pat` occurs contiguously in `l`. -/
def containsSubL (l pat : List Char) : Bool :=
  match l with
  | [] => startsWithL pat []
  | _ :: rest => startsWithL pat l || containsSubL rest pat

/-- Case-sensitive substring test, modelling JavaScript
`String.prototype.includes`. -/
def strIncludes (s pat : String) : Bool :=
  containsSubL s.data pat.data

/-- `getPowerCapacityForExport(level, roleKey, gameData)` (pdf-export.js lines
688-704).  A falsy or unresolved role key yields the base capacity 2; the
growth class is recognised by substring tests on `role.powerCapacityGrowth`. -/
def getPowerCapacityForExport (level : Int) (roleKey : Option String)
    (gd : GameData) : Int :=
  match roleKey with
  | none => 2
  | some rk =>
      if rk = "" then 2
      else
        match gd.roles rk with
        | none => 2
        | some role =>
            let growth := role.powerCapacityGrowth
            if strIncludes growth "Fast" then 2 + (level - 1).fdiv 4 * 2
            else if strIncludes growth "Moderate" then 2 + (level - 1).fdiv 3
            else 2 + (level - 1).fdiv 5 * 2

/-- The armor-training record returned by `getArmorTrainingForExport`. -/
structure ArmorTraining where
  types : List String
  maxBonus : Nat
  maxType : String
  deriving DecidableEq

/-- The hardcoded `armorByRole` table inside `getArmorTrainingForExport`
(pdf-export.js lines 710-718). -/
def armorByRole (r : String) : Option ArmorTraining :=
  if r = "red" then some ⟨["Light", "Medium", "Heavy"], 4, "Heavy"⟩
  else if r = "blue" then some ⟨["Light", "Medium"], 2, "Medium"⟩
  else if r = "yellow" then some ⟨["Light"], 1, "Light"⟩
  else if r = "pink" then some ⟨["Light"], 1, "Light"⟩
  else if r = "green" then some ⟨["Light", "Medium"], 2, "Medium"⟩
  else if r = "black" then some ⟨["Light", "Medium"], 2, "Medium"⟩
  else if r = "white" then some ⟨["Light", "Medium"], 2, "Medium"⟩
  else none

/-- The default used when `armorByRole[character.role]` is undefined. -/
def defaultArmorTraining : ArmorTraining := ⟨["Light"], 1, "Light"⟩

/-- `getArmorTrainingForExport(character, gameData)` (pdf-export.js lines
709-734): per-role base tier, then the three armor-shell perk upgrade steps in
source order (the Ultra-Heavy step is unconditional in the code). -/
def getArmorTrainingForExport (ch : Character) (gd : GameData) : ArmorTraining :=
  let training :=
    match ch.role with
    | some r => (armorByRole r).getD defaultArmorTraining
    | none => defaultArmorTraining
  let training :=
    if ch.selectedPerks.contains "Medium Armor Shell" ∧ training.maxBonus < 2
    then ⟨training.types ++ ["Medium"], 2, "Medium"⟩ else training
  let training :=
    if ch.selectedPerks.contains "Heavy Armor Shell" ∧ training.maxBonus < 4
    then ⟨training.types ++ ["Heavy"], 4, "Heavy"⟩ else training
  if ch.selectedPerks.contains "Ultra-Heavy Armor Shell"
  then ⟨training.types ++ ["Ultra-Heavy"], 6, "Ultra-Heavy"⟩ else training

/-- `getArmorBonusForExport(character, gameData)` (pdf-export.js lines
739-742). -/
def getArmorBonusForExport (ch : Character) (gd : GameData) : Nat :=
  let training := getArmorTrainingForExport ch gd
  if training.maxBonus = 0 then 1 else training.maxBonus

/-! ## Reading the update folds pointwise -/

/-- The role lookup guarded by JS truthiness
(`character.role && gameData.roles[character.role]`). -/
def lookupRoleTruthy (ch : Character) (gd : GameData) : Option Role :=
  match ch.role with
  | some rk => if rk = "" then none else gd.roles rk
  | none => none

/-- Total contribution of an entry list to one key. -/
def entrySum {M : Type} [AddCommMonoid M] (entries : List (String × M))
    (s : String) : M :=
  (entries.map (fun p => if p.1 = s then p.2 else 0)).sum

/-- Starting skill ranks the character's role grants for skill `s`. -/
def roleStartingRanks (ch : Character) (gd : GameData) (s : String) : Nat :=
  match ch.role.bind gd.roles with
  | some role => entrySum role.startingSkillRanks s
  | none => 0

/-- Ranks of skill `s` granted across all level-up choices. -/
def levelUpGrants (ch : Character) (s : String) : Nat :=
  (ch.levelUpChoices.map (fun lc => lc.2.skillRanks.count s)).sum

/-- Signed essence adjustment the character's role contributes to essence
`e`. -/
def roleEssenceAdjSum (ch : Character) (gd : GameData) (e : String) : Int :=
  match lookupRoleTruthy ch gd with
  | some role => entrySum role.essenceAdjustments e
  | none => 0

/-- Contribution of a truthy `roleSkillChoice` to skill `s` (the code adds 1
at the chosen key when the choice is a non-empty string). -/
def choiceBonus (choice : Option String) (s : String) : Nat :=
  match choice with
  | some c => if c = "" then 0 else if c = s then 1 else 0
  | none => 0

/-- Contribution of a truthy `originEssenceChoice` to essence `e`. -/
def originBonus (choice : Option String) (e : String) : Int :=
  match choice with
  | some c => if c = "" then 0 else if c = e then 1 else 0
  | none => 0

/-! ## Local-storage persistence (utility file, lines 102-135)

The browser pieces are modelled concretely: `localStorage` is a string store
with a byte quota (`setItem` fails — throws `QuotaExceededError` — when the
store would exceed the quota), and the `JSON.stringify` / `JSON.parse` pair is
an abstract serialization codec for the stored value type.  `stringify`
returning `none` models a throwing `JSON.stringify`; `parse` returning `none`
models a throwing `JSON.parse`. -/

/-- The `JSON.stringify` / `JSON.parse` boundary for values of type `α`. -/
structure Codec (α : Type) where
  stringify : α → Option String
  parse : String → Option α

/-- A codec is JSON-like when parsing recovers any successfully serialized
value. -/
def Codec.RoundTrips {α : Type} (c : Codec α) : Prop :=
  ∀ (a : α) (s : String), c.stringify a = some s → c.parse s = some a

/-- The browser `localStorage`: key/value pairs plus a capacity. -/
structure LocalStorage where
  quota : Nat
  items : List (String × String)

/-- Key lookup in an association list (first matching entry). -/
def lookupA {α : Type} (l : List (String × α)) (n : String) : Option α :=
  match l with
  | [] => none
  | p :: r => if p.1 = n then some p.2 else lookupA r n

/-- Replace the value at a key, or append the pair when the key is absent. -/
def storeA {α : Type} (l : List (String × α)) (n : String) (v : α) :
    List (String × α) :=
  match l with
  | [] => [(n, v)]
  | p :: r => if p.1 = n then (n, v) :: r else p :: storeA r n v

/-- Total byte size of a store's contents. -/
def storageSize (items : List (String × String)) : Nat :=
  (items.map (fun p => p.1.length + p.2.length)).sum

/-- `localStorage.getItem(key)`: `none` is JavaScript `null`. -/
def getItem (st : LocalStorage) (key : String) : Option String :=
  lookupA st.items key

/-- `localStorage.setItem(key, value)`: `none` models the thrown
`QuotaExceededError` when the updated store would exceed the quota. -/
def setItem (st : LocalStorage) (key value : String) : Option LocalStorage :=
  let items := storeA st.items key value
  if storageSize items ≤ st.quota then some { st with items := items }
  else none

/-- `safeStorageSave(key, data)` (utility file lines 102-115): serialize then
store; any thrown error is caught and reported as `false`, leaving the store
untouched. -/
def safeStorageSave {α : Type} (codec : Codec α) (st : LocalStorage)
    (key : String) (data : α) : Bool × LocalStorage :=
  match codec.stringify data with
  | none => (false, st)
  | some serialized =>
      match setItem st key serialized with
      | none => (false, st)
      | some st2 => (true, st2)

/-- `safeStorageLoad(key, defaultValue)` (utility file lines 123-135): a
missing key or a throwing `JSON.parse` yields the caller's default. -/
def safeStorageLoad {α : Type} (codec : Codec α) (st : LocalStorage)
    (key : String) (defaultValue : α) : α :=
  match getItem st key with
  | none => defaultValue
  | some serialized =>
      match codec.parse serialized with
      | none => defaultValue
      | some v => v

/-! ## PDF form model (pdf-export.js)

The pdf-lib `form` object is modelled as two association lists of named
fields.  `form.getTextField(name)` throws when no field has that name; the
`try`/`catch` in `setTextField`/`setCheckBox` turns that into a silent no-op,
which the model expresses directly. -/

/-- A fillable form: named text fields and named check boxes. -/
structure Form where
  textFields : List (String × String)
  checkBoxes : List (String × Bool)

/-- Overwrite the value stored at every entry with the given key. -/
def writeA {α : Type} (l : List (String × α)) (n : String) (v : α) :
    List (String × α) :=
  l.map (fun p => if p.1 = n then (p.1, v) else p)

/-- `setTextField(form, fieldName, value)` (pdf-export.js lines 567-577):
writes the text field when it exists, silently does nothing otherwise
(`value || ''` is the identity on the string-typed model). -/
def setTextField (form : Form) (fieldName value : String) : Form :=
  match lookupA form.textFields fieldName with
  | some _ => { form with textFields := writeA form.textFields fieldName value }
  | none => form

/-- `setCheckBox(form, fieldName, checked)` (pdf-export.js lines 582-596):
checks or unchecks the box when it exists, silently does nothing otherwise. -/
def setCheckBox (form : Form) (fieldName : String) (checked : Bool) : Form :=
  match lookupA form.checkBoxes fieldName with
  | some _ => { form with checkBoxes := writeA form.checkBoxes fieldName checked }
  | none => form

/-- Drop a named text field from a form (a template revision without it). -/
def removeTextField (form : Form) (n : String) : Form :=
  { form with textFields := form.textFields.filter (fun p => !decide (p.1 = n)) }

/-- `fillZord(form, character, gameData)` (pdf-export.js lines 472-519).  The
`ZORD_TEAM_TYPES` rule-data global lives outside src/ and is modelled as the
`zordTeamTypes` table of `GameData`; the `typeof` guard is therefore always
satisfied.  Baseline stats, the Heavy-Chassis team modifier, the growth-choice
bumps, and the fixed weapon rows follow the source line by line. -/
def fillZord (form : Form) (ch : Character) (gd : GameData) : Form :=
  match ch.zord with
  | none => form
  | some zord =>
      let form := setTextField form "Zord Name" zord.name
      let zordStr : Int := 6
      let zordSpd : Int := 4
      let zordHealth : Int := 6
      let zordArmor : Int := 1
      let heavyChassis :=
        match zord.teamType with
        | some tt =>
            if tt = "" then false
            else
              match gd.zordTeamTypes tt with
              | some teamType => teamType.features.contains "Heavy Chassis"
              | none => false
        | none => false
      let zordStr : Int := if heavyChassis then zordStr + 1 else zordStr
      let zordHealth : Int := if heavyChassis then zordHealth + 1 else zordHealth
      let grown : Int × Int :=
        (zord.growthChoices.map Prod.snd).foldl
          (fun q choice =>
            (if choice = "health" then q.1 + 1 else q.1,
             if choice = "armor" then q.2 + 1 else q.2))
          (zordHealth, zordArmor)
      let zordHealth : Int := grown.1
      let zordArmor : Int := grown.2
      let form := setTextField form "Zord Str" (toString zordStr)
      let form := setTextField form "Zord Spd" (toString zordSpd)
      let form := setTextField form "Zord T" (toString (10 + zordStr + zordArmor))
      let form := setTextField form "Zord Eva" (toString (10 + zordSpd))
      let form := setTextField form "Zord Move" "40ft"
      let form := setTextField form "Zord Health" (toString zordHealth)
      let form := setTextField form "Size" "Huge"
      let form := setTextField form "ZW1" "Melee Attack"
      let form := setTextField form "ZW Rng 1" "Reach"
      let form := setTextField form "ZW Eff 1" "2 Blunt/Sharp"
      let form := setTextField form "ZW2" "Ranged Attack"
      let form := setTextField form "ZW Rng 2" "50/120ft"
      setTextField form "ZW Eff 2" "2 Energy"

/-! ## meetsPrerequisite (utility file, lines 499-550)

The function matches three regular expressions against the prerequisite text —
`/level\s*(\d+)\+?/i`, `/<essence>\s*(\d+)\+?/i` for each essence name, and
`/(\w+(?:\s+\w+)?)\s+d(\d+)\+?/i` — and performs three case-insensitive
substring tests for armor-training requirements.  The scanners below implement
exactly JavaScript `String.prototype.match` (leftmost match) for these
patterns.  For the patterns at hand the greedy quantifiers are effectively
atomic: every `\w+`/`\s+` is followed by a character class disjoint from its
own, so giving characters back can never produce a match, and a match
starting inside a word run succeeds exactly when the match starting at the
run's head does; the scanners exploit this. -/

/-- JavaScript `\w` (ASCII): letters, digits, underscore. -/
def isWordCh (c : Char) : Bool :=
  c.isAlphanum || c = '_'

/-- JavaScript `\s` restricted to ASCII whitespace. -/
def isSpaceCh (c : Char) : Bool :=
  c = ' ' || c = Char.ofNat 9 || c = Char.ofNat 10 || c = Char.ofNat 13 ||
    c = Char.ofNat 11 || c = Char.ofNat 12

/-- `parseInt` on a run of decimal digits. -/
def digitsToNat (l : List Char) : Nat :=
  l.foldl (fun n c => n * 10 + (c.toNat - 48)) 0

/-- Case-insensitive literal match: strip `lit` from the front of `l`. -/
def ciStrip (lit l : List Char) : Option (List Char) :=
  match lit, l with
  | [], rest => some rest
  | _ :: _, [] => none
  | a :: as, c :: cs =>
      if c.toLower = a.toLower then ciStrip as cs else none

/-- Try `<lit>\s*(\d+)\+?` at the current position: the literal
(case-insensitively), optional whitespace, then at least one digit.  Returns
the captured number and the text after the digit run. -/
def tryLitNumAt (lit l : List Char) : Option (Nat × List Char) :=
  match ciStrip lit l with
  | none => none
  | some rest =>
      let rest2 := rest.dropWhile isSpaceCh
      let digits := rest2.takeWhile Char.isDigit
      if digits.isEmpty then none
      else some (digitsToNat digits, rest2.dropWhile Char.isDigit)

/-- Leftmost match of `/<lit>\s*(\d+)\+?/i` (JavaScript `match` advances one
character after a failed attempt). -/
def scanLitNum (lit : List Char) : List Char → Option (Nat × List Char)
  | [] => none
  | c :: rest =>
      match tryLitNumAt lit (c :: rest) with
      | some r => some r
      | none => scanLitNum lit rest

/-- Continuation of the skill regex after the leading word run `W1`:
`(?:\s+\w+)?\s+d(\d+)\+?`, preferring the one-more-word alternative first
(greedy `?`).  Returns the text captured after `W1` (whitespace plus second
word, or nothing), the die number, and the rest after the match. -/
def skillCont (r1 : List Char) : Option (List Char × Nat × List Char) :=
  let s1 := r1.takeWhile isSpaceCh
  let r2 := r1.dropWhile isSpaceCh
  if s1.isEmpty then none
  else
    let withGroup :=
      let w2 := r2.takeWhile isWordCh
      let r3 := r2.dropWhile isWordCh
      if w2.isEmpty then none
      else
        let s2 := r3.takeWhile isSpaceCh
        let r4 := r3.dropWhile isSpaceCh
        if s2.isEmpty then none
        else
          match r4 with
          | d :: ds =>
              if d = 'd' || d = 'D' then
                let digits := ds.takeWhile Char.isDigit
                if digits.isEmpty then none
                else some (s1 ++ w2, digitsToNat digits, ds.dropWhile Char.isDigit)
              else none
          | [] => none
    match withGroup with
    | some r => some r
    | none =>
        match r2 with
        | d :: ds =>
            if d = 'd' || d = 'D' then
              let digits := ds.takeWhile Char.isDigit
              if digits.isEmpty then none
              else some ([], digitsToNat digits, ds.dropWhile Char.isDigit)
            else none
        | [] => none

/-- Leftmost match of `/(\w+(?:\s+\w+)?)\s+d(\d+)\+?/i`: captured skill name
(the exact matched text, used to index `character.skills`), die number, and
the rest after the match. -/
def skillScan : List Char → Option (List Char × Nat × List Char)
  | [] => none
  | c :: rest =>
      if isWordCh c then
        match skillCont (rest.dropWhile isWordCh) with
        | some (cap2, die, restm) =>
            some ((c :: rest.takeWhile isWordCh) ++ cap2, die, restm)
        | none => skillScan rest
      else skillScan rest

/-- `str.toLowerCase()` (ASCII). -/
def lowerStr (s : String) : String :=
  String.mk (s.data.map Char.toLower)

/-- `DICE_PROGRESSION.findIndex(d => d === `d${requiredDie}`)`: the
progression index of the die notation, `-1` when absent. -/
def dieIndexJS (die : Nat) : Int :=
  match DICE_PROGRESSION.findIdx? (fun d => d = "d" ++ toString die) with
  | some i => (i : Int)
  | none => -1

/-- The level-requirement block: present level pattern with an unmet
threshold (`character.level < requiredLevel` triggers `return false`). -/
def levelCheckFails (prereq : String) (ch : Character) : Bool :=
  match scanLitNum "level".data prereq.data with
  | some r => ch.level < (r.1 : Int)
  | none => false

/-- The essence-requirement loop: some essence name has a present pattern
whose threshold the final essence score misses. -/
def essenceCheckFails (prereq : String) (ch : Character) (gd : GameData) :
    Bool :=
  ESSENCE_LIST.any (fun essence =>
    match scanLitNum essence.data prereq.data with
    | some r => calculateFinalEssence ch gd essence < (r.1 : Int)
    | none => false)

/-- The skill-requirement block: a present skill-die pattern whose raw rank
count is below the die's progression index. -/
def skillCheckFails (prereq : String) (ch : Character) : Bool :=
  match skillScan prereq.data with
  | some m => (ch.skills (String.mk m.1) : Int) < dieIndexJS m.2.1
  | none => false

/-- `gameData.roles[character.role]?.armorTraining || []`. -/
def roleArmorTraining (ch : Character) (gd : GameData) : List String :=
  match ch.role with
  | some r =>
      match gd.roles r with
      | some role => role.armorTraining
      | none => []
  | none => []

/-- The three armor-training blocks: a named requirement is detected by a
case-insensitive substring test and fails when neither the role table nor the
corresponding armor-shell perk provides the tier (no perk helps for Light). -/
def armorCheckFails (prereq : String) (ch : Character) (gd : GameData) : Bool :=
  let prereqLower := lowerStr prereq
  let roleTraining := roleArmorTraining ch gd
  (strIncludes prereqLower "light armor training"
      && !(roleTraining.contains "Light"))
  || (strIncludes prereqLower "medium armor training"
      && !(roleTraining.contains "Medium")
      && !(ch.selectedPerks.contains "Medium Armor Shell"))
  || (strIncludes prereqLower "heavy armor training"
      && !(roleTraining.contains "Heavy")
      && !(ch.selectedPerks.contains "Heavy Armor Shell"))

/-- `meetsPrerequisite(prereq, character, gameData)` (utility file lines
499-550).  A falsy (empty) prerequisite is vacuously met; otherwise the four
blocks run in order, each able to `return false`, which is the conjunction of
their negations. -/
def meetsPrerequisite (prereq : String) (ch : Character) (gd : GameData) :
    Bool :=
  if prereq = "" then true
  else
    !levelCheckFails prereq ch
    && !essenceCheckFails prereq ch gd
    && !skillCheckFails prereq ch
    && !armorCheckFails prereq ch gd

/-! ### The claim-side predicate: every pattern present must pass

`prereqClaimSpec` follows the specification's words — "all present patterns
must individually pass (logical AND); absent patterns are vacuously
satisfied", each pattern "evaluated independently and irrespective of others
in the same string" — by collecting all (non-overlapping) occurrences of each
pattern class, and by checking each named armor tier, including Ultra-Heavy,
against "the role (or an armor-shell perk) grants that tier". -/

/-- All non-overlapping matches of `/<lit>\s*(\d+)\+?/i` (as `matchAll`:
scanning resumes after each match).  Fuelled to keep recursion structural;
`l.length` fuel is always enough. -/
def scanLitNumAll (fuel : Nat) (lit l : List Char) : List Nat :=
  match fuel, l with
  | 0, _ => []
  | _, [] => []
  | fuel + 1, c :: rest =>
      match tryLitNumAt lit (c :: rest) with
      | some r => r.1 :: scanLitNumAll fuel lit r.2
      | none => scanLitNumAll fuel lit rest

/-- All non-overlapping matches of the skill-die pattern. -/
def skillScanAll (fuel : Nat) (l : List Char) : List (List Char × Nat) :=
  match fuel, l with
  | 0, _ => []
  | _, [] => []
  | fuel + 1, c :: rest =>
      if isWordCh c then
        match skillCont (rest.dropWhile isWordCh) with
        | some (cap2, die, restm) =>
            ((c :: rest.takeWhile isWordCh) ++ cap2, die)
              :: skillScanAll fuel restm
        | none => skillScanAll fuel rest
      else skillScanAll fuel rest

/-- The named armor tiers and their armor-shell perk names. -/
def armorTierReqs : List (String × String) :=
  [("light armor training", "Light"),
   ("medium armor training", "Medium"),
   ("heavy armor training", "Heavy"),
   ("ultra-heavy armor training", "Ultra-Heavy")]

/-- Modelled from the spec: the claim's reading of `prerequisiteSatisfied` —
every pattern present in the string passes: each level threshold, each
essence threshold, each skill-die threshold, and each named armor-training
tier granted by the role or by the tier's armor-shell perk. -/
def prereqClaimSpec (prereq : String) (ch : Character) (gd : GameData) :
    Bool :=
  let l := prereq.data
  let fuel := l.length + 1
  (scanLitNumAll fuel "level".data l).all (fun n => (n : Int) ≤ ch.level)
  && ESSENCE_LIST.all (fun essence =>
       (scanLitNumAll fuel essence.data l).all
         (fun n => (n : Int) ≤ calculateFinalEssence ch gd essence))
  && (skillScanAll fuel l).all
       (fun m => dieIndexJS m.2 ≤ (ch.skills (String.mk m.1) : Int))
  && armorTierReqs.all (fun t =>
       !(strIncludes (lowerStr prereq) t.1)
       || (roleArmorTraining ch gd).contains t.2
       || ch.selectedPerks.contains (t.2 ++ " Armor Shell"))

/-! ### First-occurrence pattern checks (what the code enforces) -/

/-- The leftmost level pattern, when present, passes. -/
def levelPatternOk (prereq : String) (ch : Character) : Bool :=
  match scanLitNum "level".data prereq.data with
  | some r => (r.1 : Int) ≤ ch.level
  | none => true

/-- For each essence name, the leftmost threshold pattern, when present,
passes against the final essence score. -/
def essencePatternsOk (prereq : String) (ch : Character) (gd : GameData) :
    Bool :=
  ESSENCE_LIST.all (fun essence =>
    match scanLitNum essence.data prereq.data with
    | some r => (r.1 : Int) ≤ calculateFinalEssence ch gd essence
    | none => true)

/-- The leftmost skill-die pattern, when present, passes against the raw
rank count of the captured skill name. -/
def skillPatternOk (prereq : String) (ch : Character) : Bool :=
  match skillScan prereq.data with
  | some m => dieIndexJS m.2.1 ≤ (ch.skills (String.mk m.1) : Int)
  | none => true

/-- Substring-detected armor requirements pass: Light from the role only,
Medium and Heavy from the role or the matching armor-shell perk (an
Ultra-Heavy requirement contains the Heavy substring and is checked as
Heavy). -/
def armorPatternsOk (prereq : String) (ch : Character) (gd : GameData) :
    Bool :=
  let prereqLower := lowerStr prereq
  let roleTraining := roleArmorTraining ch gd
  (!(strIncludes prereqLower "light armor training")
      || roleTraining.contains "Light")
  && (!(strIncludes prereqLower "medium armor training")
      || roleTraining.contains "Medium"
      || ch.selectedPerks.contains "Medium Armor Shell")
  && (!(strIncludes prereqLower "heavy armor training")
      || roleTraining.contains "Heavy"
      || ch.selectedPerks.contains "Heavy Armor Shell")

/-! ## Further definitions used by the claim statements -/

/-- Modelled from the spec: `calculateFinalEssence` with the two additive
passes swapped — role essence adjustments first, then the origin
essence-choice bonus — for the order-independence claim. -/
def calculateFinalEssenceRoleFirst (ch : Character) (gd : GameData) :
    String → Int :=
  let result := ch.essence
  let result :=
    match ch.role with
    | some rk =>
        if rk = "" then result
        else
          match gd.roles rk with
          | some role =>
              role.essenceAdjustments.foldl
                (fun acc p => updMap acc p.1 (acc p.1 + p.2)) result
          | none => result
    | none => result
  match ch.originEssenceChoice with
  | some c => if c = "" then result else updMap result c (result c + 1)
  | none => result

/-- The per-role base armor training (the first step of
`getArmorTrainingForExport`). -/
def roleArmorBase (ch : Character) : ArmorTraining :=
  match ch.role with
  | some r => (armorByRole r).getD defaultArmorTraining
  | none => defaultArmorTraining

/-- The three armor-shell perk upgrade steps of `getArmorTrainingForExport`,
abstracted over the detected perk flags. -/
def armorShellSteps (t : ArmorTraining) (m h u : Bool) : ArmorTraining :=
  let t := if m ∧ t.maxBonus < 2 then ⟨t.types ++ ["Medium"], 2, "Medium"⟩ else t
  let t := if h ∧ t.maxBonus < 4 then ⟨t.types ++ ["Heavy"], 4, "Heavy"⟩ else t
  if u then ⟨t.types ++ ["Ultra-Heavy"], 6, "Ultra-Heavy"⟩ else t

/-- A concrete JSON-like codec for `Bool`, used to instantiate the
round-trip theorem. -/
def boolCodec : Codec Bool :=
  { stringify := fun b => some (if b then "true" else "false"),
    parse := fun s =>
      if s = "true" then some true
      else if s = "false" then some false else none }

/-- The claim's concrete scenario: raw Conditioning 2, role starting ranks
one Conditioning, one level-up Conditioning grant. -/
def scenarioC1Character : Character :=
  { skills := fun s => if s = "Conditioning" then 2 else 0,
    role := some "ranger",
    levelUpChoices := [(2, { skillRanks := ["Conditioning"] })] }

/-- Rule tables for the scenario: the role grants one starting Conditioning
rank. -/
def scenarioC1GameData : GameData :=
  { roles := fun r =>
      if r = "ranger" then some { startingSkillRanks := [("Conditioning", 1)] }
      else none }

/-- A character whose origin key resolves to no rule-table entry. -/
def missingOriginCharacter : Character :=
  { origin := some "lost-origin",
    skills := fun s => if s = "Conditioning" then 3 else 0 }

/-- Empty rule tables: every key is unresolved. -/
def emptyGameData : GameData := {}

/-- A prerequisite string holding two skill-die patterns. -/
def prereqC2String : String := "Conditioning d4+, Targeting d6+"

/-- A character meeting the first skill-die pattern of `prereqC2String` but
not the second. -/
def prereqC2Character : Character :=
  { skills := fun s => if s = "Conditioning" then 2 else 0 }

/-- A sample form lacking a "Zord Health" text field. -/
def sampleFormNoZordHealth : Form :=
  { textFields := [("Zord Name", ""), ("Zord Str", "")], checkBoxes := [] }

/-! ## Extra concrete inputs for witnesses -/

/-- The spec's essence scenario: Strength raw 3, origin choice Strength, role
adjustment Strength +1. -/
def scenarioC4Character : Character :=
  { essence := fun e => if e = "Strength" then 3 else 1,
    originEssenceChoice := some "Strength",
    role := some "ranger" }

/-- Rule tables for the essence scenario. -/
def scenarioC4GameData : GameData :=
  { roles := fun r =>
      if r = "ranger" then some { essenceAdjustments := [("Strength", 1)] }
      else none }

/-- The default character shape. -/
def emptyCharacter : Character := {}

/-! # Theorems -/

/-! ### Lemmas about `sanitizeHTML` -/

theorem SANITIZE_MAP_eq_none_iff (c : Char) :
    SANITIZE_MAP c = none ↔ c ∉ sanitizeChars := by
  simp only [SANITIZE_MAP, sanitizeChars]
  split <;> rename_i h₁
  · simp_all
  · split <;> rename_i h₂
    · simp_all
    · split <;> rename_i h₃
      · simp_all
      · split <;> rename_i h₄
        · simp_all
        · split <;> rename_i h₅ <;> simp_all

theorem escChar_of_not_mem {c : Char} (h : c ∉ sanitizeChars) :
    escChar c = [c] := by
  simp [escChar, (SANITIZE_MAP_eq_none_iff c).mpr h]

theorem escChar_length_pos (c : Char) : 0 < (escChar c).length := by
  by_cases h : c ∈ sanitizeChars
  · fin_cases h <;> decide
  · rw [escChar_of_not_mem h]; simp

theorem amp_mem_escChar_of_mem {c : Char} (h : c ∈ sanitizeChars) :
    '&' ∈ escChar c := by
  fin_cases h <;> decide

theorem escChar_length_ge_four_of_mem {c : Char} (h : c ∈ sanitizeChars) :
    4 ≤ (escChar c).length := by
  fin_cases h <;> decide

theorem sanitizeList_of_forall_not_mem {l : List Char}
    (h : ∀ c ∈ l, c ∉ sanitizeChars) : sanitizeList l = l := by
  induction l with
  | nil => rfl
  | cons a t ih =>
    simp only [sanitizeList, List.map_cons, List.flatten_cons]
    rw [escChar_of_not_mem (h a (by simp))]
    have := ih (fun c hc => h c (by simp [hc]))
    simp only [sanitizeList] at this
    simp [this]

theorem length_le_sanitizeList (l : List Char) :
    l.length ≤ (sanitizeList l).length := by
  induction l with
  | nil => simp [sanitizeList]
  | cons a t ih =>
    simp only [sanitizeList, List.map_cons, List.flatten_cons, List.length_append,
      List.length_cons]
    have := escChar_length_pos a
    simp only [sanitizeList] at ih
    omega

theorem length_lt_sanitizeList_of_mem {l : List Char}
    (h : ∃ c ∈ l, c ∈ sanitizeChars) :
    l.length < (sanitizeList l).length := by
  induction l with
  | nil => simp at h
  | cons a t ih =>
    simp only [sanitizeList, List.map_cons, List.flatten_cons, List.length_append,
      List.length_cons]
    rcases h with ⟨c, hc, hcs⟩
    rcases List.mem_cons.mp hc with rfl | hct
    · have h4 := escChar_length_ge_four_of_mem hcs
      have := length_le_sanitizeList t
      simp only [sanitizeList] at this
      omega
    · have := ih ⟨c, hct, hcs⟩
      simp only [sanitizeList] at this
      have := escChar_length_pos a
      omega

theorem amp_mem_sanitizeList_of_mem {l : List Char}
    (h : ∃ c ∈ l, c ∈ sanitizeChars) : '&' ∈ sanitizeList l := by
  rcases h with ⟨c, hc, hcs⟩
  simp only [sanitizeList, List.mem_flatten]
  exact ⟨escChar c, List.mem_map_of_mem escChar hc, amp_mem_escChar_of_mem hcs⟩

theorem sanitizeList_ne_of_mem {l : List Char}
    (h : ∃ c ∈ l, c ∈ sanitizeChars) :
    sanitizeList (sanitizeList l) ≠ sanitizeList l := by
  intro heq
  have hamp : '&' ∈ sanitizeList l := amp_mem_sanitizeList_of_mem h
  have hlt : (sanitizeList l).length < (sanitizeList (sanitizeList l)).length :=
    length_lt_sanitizeList_of_mem ⟨'&', hamp, by decide⟩
  rw [heq] at hlt
  omega

theorem foldAdd_apply {M : Type} [AddCommMonoid M]
    (entries : List (String × M)) (f : String → M) (s : String) :
    (entries.foldl (fun acc p => updMap acc p.1 (acc p.1 + p.2)) f) s
      = f s + entrySum entries s := by
  induction entries generalizing f with
  | nil => simp [entrySum]
  | cons a t ih =>
    simp only [List.foldl_cons, entrySum, List.map_cons, List.sum_cons]
    rw [ih]
    simp only [entrySum, updMap]
    by_cases h : s = a.1
    · subst h; simp [add_assoc]
    · have h2 : ¬a.1 = s := fun hh => h hh.symm
      simp [h, h2, add_assoc]

theorem nameFold_apply (names : List String) (f : String → Nat) (s : String) :
    (names.foldl (fun a n => updMap a n (a n + 1)) f) s
      = f s + names.count s := by
  induction names generalizing f with
  | nil => simp
  | cons a t ih =>
    simp only [List.foldl_cons]
    rw [ih]
    simp only [updMap, List.count_cons]
    by_cases h : s = a
    · subst h; simp [add_comm, add_assoc, add_left_comm]
    · have h2 : ¬(a == s) = true := by simpa using fun hh => h hh.symm
      simp [h, h2]

theorem levelFold_apply (lucs : List (Nat × LevelUpChoice))
    (f : String → Nat) (s : String) :
    (lucs.foldl
        (fun acc lc =>
          lc.2.skillRanks.foldl (fun a n => updMap a n (a n + 1)) acc) f) s
      = f s + (lucs.map (fun lc => lc.2.skillRanks.count s)).sum := by
  induction lucs generalizing f with
  | nil => simp
  | cons a t ih =>
    simp only [List.foldl_cons, List.map_cons, List.sum_cons]
    rw [ih, nameFold_apply]
    omega

/-- Reading one truthy-choice bump (`obj[c] = (obj[c] || 0) + 1`) at `e`. -/
theorem updMap_bump_apply {M : Type} [AddCommMonoid M] [One M]
    (f : String → M) (c : String) (e : String) :
    updMap f c (f c + 1) e = f e + (if c = e then (1 : M) else 0) := by
  by_cases hce : c = e
  · subst hce; simp [updMap]
  · have hec : ¬e = c := fun h => hce h.symm
    simp [updMap, hce, hec]

/-- Pointwise reading of `buildFinalSkills`: raw allocation plus role starting
ranks plus the role-skill-choice bonus plus level-up grants. -/
theorem buildFinalSkills_apply (ch : Character) (gd : GameData) (s : String) :
    buildFinalSkills ch gd s
      = ch.skills s + roleStartingRanks ch gd s
        + choiceBonus ch.roleSkillChoice s + levelUpGrants ch s := by
  unfold buildFinalSkills roleStartingRanks levelUpGrants choiceBonus
  rw [levelFold_apply]
  rcases hrole : ch.role.bind gd.roles with _ | role <;> simp only [hrole] <;>
    rcases hch : ch.roleSkillChoice with _ | c <;> simp only [hch]
  · simp
  · by_cases hc : c = ""
    · simp [hc]
    · rw [if_neg hc, if_neg hc, updMap_bump_apply]
      omega
  · rw [foldAdd_apply]; simp
  · by_cases hc : c = ""
    · simp [hc, foldAdd_apply]
    · rw [if_neg hc, if_neg hc, updMap_bump_apply, foldAdd_apply]

/-- Pointwise reading of `calculateFinalEssence`: raw score plus the origin
essence-choice bonus plus the role's signed adjustments. -/
theorem calculateFinalEssence_apply (ch : Character) (gd : GameData)
    (e : String) :
    calculateFinalEssence ch gd e
      = ch.essence e + originBonus ch.originEssenceChoice e
        + roleEssenceAdjSum ch gd e := by
  unfold calculateFinalEssence roleEssenceAdjSum lookupRoleTruthy originBonus
  rcases hoc : ch.originEssenceChoice with _ | c <;> simp only [hoc] <;>
    rcases hr : ch.role with _ | rk <;> simp only [hr]
  · simp
  · by_cases hrk : rk = ""
    · simp [hrk]
    · rw [if_neg hrk, if_neg hrk]
      rcases hrr : gd.roles rk with _ | role <;> simp only [hrr]
      · simp
      · rw [foldAdd_apply]; ring
  · by_cases hc : c = ""
    · simp [hc]
    · rw [if_neg hc, if_neg hc, updMap_bump_apply]
      ring
  · by_cases hc : c = ""
    · by_cases hrk : rk = ""
      · simp [hc, hrk]
      · rw [if_pos hc, if_neg hrk, if_pos hc, if_neg hrk]
        rcases hrr : gd.roles rk with _ | role <;> simp only [hrr]
        · simp
        · rw [foldAdd_apply]; ring
    · by_cases hrk : rk = ""
      · rw [if_neg hc, if_pos hrk, if_neg hc, if_pos hrk, updMap_bump_apply]
        ring
      · rw [if_neg hc, if_neg hrk, if_neg hc, if_neg hrk]
        rcases hrr : gd.roles rk with _ | role <;> simp only [hrr]
        · rw [updMap_bump_apply]; ring
        · rw [foldAdd_apply, updMap_bump_apply]

theorem lookupA_storeA_self {α : Type} (l : List (String × α)) (n : String)
    (v : α) : lookupA (storeA l n v) n = some v := by
  induction l with
  | nil => simp [storeA, lookupA]
  | cons p r ih =>
    by_cases h : p.1 = n
    · simp [storeA, lookupA, h]
    · simp [storeA, lookupA, h, ih]

theorem lookupA_filter_ne {α : Type} (l : List (String × α)) {n g : String}
    (h : n ≠ g) :
    lookupA (l.filter (fun p => !decide (p.1 = g))) n = lookupA l n := by
  induction l with
  | nil => simp [lookupA]
  | cons p r ih =>
    by_cases hp : p.1 = g
    · have hgn : ¬g = n := fun hh => h hh.symm
      simp [List.filter_cons, hp, lookupA, hgn, ih]
    · simp [List.filter_cons, hp, lookupA, ih]

theorem lookupA_filter_self {α : Type} (l : List (String × α)) (g : String) :
    lookupA (l.filter (fun p => !decide (p.1 = g))) g = none := by
  induction l with
  | nil => simp [lookupA]
  | cons p r ih =>
    by_cases hp : p.1 = g
    · simp [List.filter_cons, hp, ih]
    · simp [List.filter_cons, hp, lookupA, ih]

theorem filter_writeA_self {α : Type} (l : List (String × α)) (g : String)
    (v : α) :
    (writeA l g v).filter (fun p => !decide (p.1 = g))
      = l.filter (fun p => !decide (p.1 = g)) := by
  induction l with
  | nil => simp [writeA]
  | cons p r ih =>
    by_cases hp : p.1 = g
    · simpa [writeA, List.filter_cons, hp] using ih
    · simpa [writeA, List.filter_cons, hp] using ih

theorem filter_writeA_ne {α : Type} (l : List (String × α)) {n g : String}
    (h : n ≠ g) (v : α) :
    (writeA l n v).filter (fun p => !decide (p.1 = g))
      = writeA (l.filter (fun p => !decide (p.1 = g))) n v := by
  induction l with
  | nil => simp [writeA]
  | cons p r ih =>
    have hgn : ¬g = n := fun hh => h hh.symm
    by_cases hp : p.1 = n
    · have hpg : ¬p.1 = g := fun hh => h (hp.symm.trans hh)
      simpa [writeA, List.filter_cons, hp, hpg, h, hgn] using ih
    · by_cases hpg : p.1 = g
      · simpa [writeA, List.filter_cons, hp, hpg, h, hgn] using ih
      · simpa [writeA, List.filter_cons, hp, hpg, h, hgn] using ih

/-- Removing a text field commutes with any single text-field write: the write
to the removed field is skipped, every other write is unaffected. -/
theorem setTextField_removeTextField (form : Form) (g n v : String) :
    setTextField (removeTextField form g) n v
      = removeTextField (setTextField form n v) g := by
  by_cases hng : n = g
  · subst hng
    simp only [setTextField, removeTextField, lookupA_filter_self]
    rcases hl : lookupA form.textFields n with _ | w
    · simp [hl]
    · simp [hl, filter_writeA_self]
  · simp only [setTextField, removeTextField, lookupA_filter_ne _ hng]
    rcases hl : lookupA form.textFields n with _ | w
    · simp [hl]
    · simp [hl, filter_writeA_ne _ hng]

/-- Removing a text field does not affect check-box writes. -/
theorem setCheckBox_removeTextField (form : Form) (g n : String) (b : Bool) :
    setCheckBox (removeTextField form g) n b
      = removeTextField (setCheckBox form n b) g := by
  simp only [setCheckBox, removeTextField]
  rcases hl : lookupA form.checkBoxes n with _ | w <;> simp [hl]

/-! ## Supporting lemmas for the claim theorems -/

theorem originBonus_eq (choice : Option String) (e : String) (he : e ≠ "") :
    originBonus choice e = if choice = some e then 1 else 0 := by
  rcases choice with _ | c
  · simp [originBonus]
  · by_cases hce : c = e
    · subst hce; simp [originBonus, he]
    · have : ¬(some c = some e) := by intro h; cases h; exact hce rfl
      by_cases hc : c = ""
      · subst hc; simp [originBonus, this]
      · simp [originBonus, hc, hce, this]

theorem choiceBonus_eq (choice : Option String) (s : String) (hs : s ≠ "") :
    choiceBonus choice s = if choice = some s then 1 else 0 := by
  rcases choice with _ | c
  · simp [choiceBonus]
  · by_cases hcs : c = s
    · subst hcs; simp [choiceBonus, hs]
    · have : ¬(some c = some s) := by intro h; cases h; exact hcs rfl
      by_cases hc : c = ""
      · subst hc; simp [choiceBonus, this]
      · simp [choiceBonus, hc, hcs, this]

/-- Pointwise reading of the role-first variant: the two passes commute into
the same sum. -/
theorem calculateFinalEssenceRoleFirst_apply (ch : Character) (gd : GameData)
    (e : String) :
    calculateFinalEssenceRoleFirst ch gd e
      = ch.essence e + originBonus ch.originEssenceChoice e
        + roleEssenceAdjSum ch gd e := by
  unfold calculateFinalEssenceRoleFirst roleEssenceAdjSum lookupRoleTruthy
    originBonus
  rcases hoc : ch.originEssenceChoice with _ | c <;> simp only [hoc] <;>
    rcases hr : ch.role with _ | rk <;> simp only [hr]
  · simp
  · by_cases hrk : rk = ""
    · simp [hrk]
    · rw [if_neg hrk, if_neg hrk]
      rcases hrr : gd.roles rk with _ | role <;> simp only [hrr]
      · simp
      · rw [foldAdd_apply]; ring
  · by_cases hc : c = ""
    · simp [hc]
    · rw [if_neg hc, if_neg hc, updMap_bump_apply]
      ring
  · by_cases hc : c = ""
    · by_cases hrk : rk = ""
      · simp [hc, hrk]
      · rw [if_neg hrk, if_pos hc, if_pos hc, if_neg hrk]
        rcases hrr : gd.roles rk with _ | role <;> simp only [hrr]
        · simp
        · rw [foldAdd_apply]; ring
    · by_cases hrk : rk = ""
      · rw [if_pos hrk, if_neg hc, if_neg hc, if_pos hrk, updMap_bump_apply]
        ring
      · rw [if_neg hrk, if_neg hc, if_neg hc, if_neg hrk]
        rcases hrr : gd.roles rk with _ | role <;> simp only [hrr]
        · rw [updMap_bump_apply]; ring
        · rw [updMap_bump_apply, foldAdd_apply]
          ring

/-! ### Per-pattern-class equivalences for `meetsPrerequisite` -/

theorem levelPatternOk_eq (prereq : String) (ch : Character) :
    levelPatternOk prereq ch = !levelCheckFails prereq ch := by
  unfold levelPatternOk levelCheckFails
  rcases h : scanLitNum "level".data prereq.data with _ | r
  · rfl
  · rw [← decide_not, decide_eq_decide]
    omega

theorem essencePatternsOk_eq (prereq : String) (ch : Character)
    (gd : GameData) :
    essencePatternsOk prereq ch gd = !essenceCheckFails prereq ch gd := by
  unfold essencePatternsOk essenceCheckFails
  have pw : ∀ e : String,
      (match scanLitNum e.data prereq.data with
       | some r => decide ((r.1 : Int) ≤ calculateFinalEssence ch gd e)
       | none => true)
        = !(match scanLitNum e.data prereq.data with
            | some r => decide (calculateFinalEssence ch gd e < (r.1 : Int))
            | none => false) := by
    intro e
    rcases h : scanLitNum e.data prereq.data with _ | r
    · rfl
    · rw [← decide_not, decide_eq_decide]
      omega
  simp only [ESSENCE_LIST, List.all_cons, List.all_nil, List.any_cons,
    List.any_nil, pw, Bool.not_or, Bool.or_false, Bool.and_true]

theorem skillPatternOk_eq (prereq : String) (ch : Character) :
    skillPatternOk prereq ch = !skillCheckFails prereq ch := by
  unfold skillPatternOk skillCheckFails
  rcases h : skillScan prereq.data with _ | m
  · rfl
  · rw [← decide_not, decide_eq_decide]
    omega

theorem armor_bool_shape (a b c d e f g h : Bool) :
    ((!a || b) && ((!c || d) || e) && ((!f || g) || h))
      = !(((a && !b) || ((c && !d) && !e)) || ((f && !g) && !h)) := by
  cases a <;> cases b <;> cases c <;> cases d <;> cases e <;> cases f <;>
    cases g <;> cases h <;> rfl

theorem armorPatternsOk_eq (prereq : String) (ch : Character)
    (gd : GameData) :
    armorPatternsOk prereq ch gd = !armorCheckFails prereq ch gd := by
  unfold armorPatternsOk armorCheckFails
  exact armor_bool_shape _ _ _ _ _ _ _ _

/-! ### Armor-shell step lemmas -/

theorem getArmorTrainingForExport_eq (ch : Character) (gd : GameData) :
    getArmorTrainingForExport ch gd
      = armorShellSteps (roleArmorBase ch)
          (ch.selectedPerks.contains "Medium Armor Shell")
          (ch.selectedPerks.contains "Heavy Armor Shell")
          (ch.selectedPerks.contains "Ultra-Heavy Armor Shell") := rfl

theorem roleArmorBase_maxBonus_le (ch : Character) :
    (roleArmorBase ch).maxBonus ≤ 4 := by
  unfold roleArmorBase
  rcases hr : ch.role with _ | r <;> simp only [hr]
  · decide
  · unfold armorByRole
    split_ifs <;> decide

theorem armorShellSteps_maxBonus (t : ArmorTraining) (m h u : Bool) :
    (armorShellSteps t m h u).maxBonus
      = if u then 6
        else if h ∧ (if m ∧ t.maxBonus < 2 then 2 else t.maxBonus) < 4 then 4
        else if m ∧ t.maxBonus < 2 then 2 else t.maxBonus := by
  unfold armorShellSteps
  dsimp only
  by_cases h1 : m = true ∧ t.maxBonus < 2
  · rw [if_pos h1, if_pos h1]
    dsimp only
    by_cases h2 : h = true ∧ (2 : Nat) < 4
    · rw [if_pos h2]
      have hh : h = true := h2.1
      cases u <;> simp [hh]
    · have hh : ¬h = true := fun hht => h2 ⟨hht, by omega⟩
      rw [if_neg h2]
      cases u <;> simp [hh]
  · rw [if_neg h1, if_neg h1]
    by_cases h2 : h = true ∧ t.maxBonus < 4
    · rw [if_pos h2, if_pos h2]
      cases u <;> simp
    · rw [if_neg h2, if_neg h2]
      cases u <;> simp

theorem armorShellSteps_base_le (t : ArmorTraining) (ht : t.maxBonus ≤ 4)
    (m h u : Bool) : t.maxBonus ≤ (armorShellSteps t m h u).maxBonus := by
  rw [armorShellSteps_maxBonus]
  split_ifs <;> omega

theorem armorShellSteps_le_six (t : ArmorTraining) (ht : t.maxBonus ≤ 4)
    (m h u : Bool) : (armorShellSteps t m h u).maxBonus ≤ 6 := by
  rw [armorShellSteps_maxBonus]
  split_ifs <;> omega

theorem armorShellSteps_mono_m (t : ArmorTraining) (ht : t.maxBonus ≤ 4)
    (h u : Bool) :
    (armorShellSteps t false h u).maxBonus
      ≤ (armorShellSteps t true h u).maxBonus := by
  rw [armorShellSteps_maxBonus, armorShellSteps_maxBonus]
  simp
  split_ifs <;> first | omega | simp_all | (simp_all; omega)

theorem armorShellSteps_mono_h (t : ArmorTraining) (ht : t.maxBonus ≤ 4)
    (m u : Bool) :
    (armorShellSteps t m false u).maxBonus
      ≤ (armorShellSteps t m true u).maxBonus := by
  rw [armorShellSteps_maxBonus, armorShellSteps_maxBonus]
  simp
  split_ifs <;> first | omega | simp_all | (simp_all; omega)

theorem armorShellSteps_mono_u (t : ArmorTraining) (ht : t.maxBonus ≤ 4)
    (m h : Bool) :
    (armorShellSteps t m h false).maxBonus
      ≤ (armorShellSteps t m h true).maxBonus := by
  rw [armorShellSteps_maxBonus, armorShellSteps_maxBonus]
  simp
  split_ifs <;> first | omega | simp_all | (simp_all; omega)

theorem decide_eq_beq (q p : String) : (decide (q = p)) = (q == p) := by
  cases h : q == p <;> simp_all

theorem contains_append_single (l : List String) (p q : String) :
    (l ++ [p]).contains q = (l.contains q || q == p) := by
  induction l with
  | nil => simp [decide_eq_beq]
  | cons a r ih =>
    simp_all [List.contains_cons, Bool.or_assoc, decide_eq_beq]

theorem lookupA_writeA_self {α : Type} (l : List (String × α)) {n : String}
    {w : α} (hl : lookupA l n = some w) (v : α) :
    lookupA (writeA l n v) n = some v := by
  induction l with
  | nil => simp [lookupA] at hl
  | cons p r ih =>
    by_cases hp : p.1 = n
    · simp [writeA, lookupA, hp]
    · simp only [lookupA, if_neg hp] at hl
      simpa [writeA, lookupA, hp] using ih hl

/-! ## Claim theorems -/

/-- C1: `maxHealth` equals the origin's base starting health plus the total
Conditioning skill ranks, where the total is the raw allocation plus the
role-granted starting ranks plus 1 if the role-skill-choice is Conditioning
plus one rank per level-up grant of Conditioning; and in the concrete
scenario (raw 2, role starting ranks 1, one level-up grant) the total is 4
and `skillDie(4) = "d8"`. -/
theorem claim_C1_maxHealth :
    (∀ (ch : Character) (gd : GameData) (o : Origin),
        ch.origin.bind gd.origins = some o → o.startingHealth ≠ 0 →
          getMaxHealthForExport ch gd
            = o.startingHealth
              + (ch.skills "Conditioning"
                 + roleStartingRanks ch gd "Conditioning"
                 + (if ch.roleSkillChoice = some "Conditioning" then 1 else 0)
                 + levelUpGrants ch "Conditioning")) ∧
    buildFinalSkills scenarioC1Character scenarioC1GameData "Conditioning" = 4 ∧
    getSkillDie 4 = "d8" := by
  refine ⟨?_, rfl, rfl⟩
  intro ch gd o ho hsh
  unfold getMaxHealthForExport
  rw [ho]
  dsimp only
  rw [if_neg hsh, buildFinalSkills_apply,
    choiceBonus_eq _ _ (by decide : ("Conditioning" : String) ≠ "")]

/-- C1 witness: the general statement applied to the concrete scenario. -/
theorem claim_C1_maxHealth_witness :
    getMaxHealthForExport
        { scenarioC1Character with origin := some "human" }
        { scenarioC1GameData with
            origins := fun o =>
              if o = "human" then some { startingHealth := 12 } else none }
      = 12 + (2 + 1 + 0 + 1) := by
  have := claim_C1_maxHealth.1
    { scenarioC1Character with origin := some "human" }
    { scenarioC1GameData with
        origins := fun o =>
          if o = "human" then some { startingHealth := 12 } else none }
    { startingHealth := 12 } rfl (by decide)
  rw [this]
  rfl

/-- C2 counterexample: the claim says every pattern present in the string
must pass, but the code checks only the first match of the skill-die pattern
class: on `"Conditioning d4+, Targeting d6+"` with raw ranks Conditioning 2
and Targeting 0, `meetsPrerequisite` returns true while the every-pattern
reading is false (the Targeting d6 threshold is unmet). -/
theorem claim_C2_counterexample :
    meetsPrerequisite prereqC2String prereqC2Character emptyGameData = true ∧
    prereqClaimSpec prereqC2String prereqC2Character emptyGameData = false :=
  ⟨rfl, rfl⟩

/-- C2 (amended): `meetsPrerequisite` is the conjunction of four independent
pattern-class checks, each enforcing only the leftmost match of its class:
the leftmost level threshold, the leftmost threshold per essence name, the
leftmost skill-die pattern (against raw ranks and the die's progression
index), and the three armor substring checks (an ultra-heavy requirement is
detected and checked as heavy); an empty prerequisite yields true, and a
class with no match is vacuously satisfied. -/
theorem claim_C2_first_match_only :
    ∀ (prereq : String) (ch : Character) (gd : GameData),
      meetsPrerequisite prereq ch gd
        = (levelPatternOk prereq ch && essencePatternsOk prereq ch gd
            && skillPatternOk prereq ch && armorPatternsOk prereq ch gd) := by
  intro prereq ch gd
  rw [levelPatternOk_eq, essencePatternsOk_eq, skillPatternOk_eq,
    armorPatternsOk_eq]
  unfold meetsPrerequisite
  by_cases hp : prereq = ""
  · subst hp
    rw [if_pos rfl]
    rfl
  · rw [if_neg hp]

/-- C3: `powerCapacity(L, C) = 2 + floor((L-1)/divisor) * multiplier` with
divisor/multiplier (5,2) for slow, (3,1) for moderate, (4,2) for fast, any
unknown class treated as slow; and `powerCapacity(9, fast) = 6`. -/
theorem claim_C3_powerCapacity :
    (∀ level : Int,
        calculatePowerCapacity level "fast" = 2 + (level - 1).fdiv 4 * 2) ∧
    (∀ level : Int,
        calculatePowerCapacity level "moderate" = 2 + (level - 1).fdiv 3) ∧
    (∀ (level : Int) (c : String), c ≠ "fast" → c ≠ "moderate" →
        calculatePowerCapacity level c = 2 + (level - 1).fdiv 5 * 2) ∧
    calculatePowerCapacity 9 "fast" = 6 := by
  refine ⟨fun level => rfl, fun level => rfl, ?_, by decide⟩
  intro level c h1 h2
  unfold calculatePowerCapacity
  rw [if_neg h1, if_neg h2]
  rfl

/-- C3 witness: an unknown growth class falls back to the slow formula. -/
theorem claim_C3_powerCapacity_witness :
    calculatePowerCapacity 11 "unknown" = 2 + ((11 : Int) - 1).fdiv 5 * 2 :=
  claim_C3_powerCapacity.2.2.1 11 "unknown" (by decide) (by decide)

/-- C4: `finalEssence` is order-independent — applying the origin bonus then
the role adjustments equals applying the role adjustments then the origin
bonus — the export variant computes the same mapping, and for every
essence type the result is the raw allocation plus 1 if it is the origin
essence choice plus the sum of the role's signed adjustments. -/
theorem claim_C4_finalEssence_order_independent :
    ∀ (ch : Character) (gd : GameData) (e : String),
      calculateFinalEssence ch gd e = calculateFinalEssenceRoleFirst ch gd e ∧
      getFinalEssenceForExport ch gd e = calculateFinalEssence ch gd e ∧
      (e ≠ "" →
        calculateFinalEssence ch gd e
          = ch.essence e
            + (if ch.originEssenceChoice = some e then 1 else 0)
            + roleEssenceAdjSum ch gd e) := by
  intro ch gd e
  refine ⟨?_, rfl, ?_⟩
  · rw [calculateFinalEssence_apply, calculateFinalEssenceRoleFirst_apply]
  · intro he
    rw [calculateFinalEssence_apply, originBonus_eq _ _ he]

/-- C4 witness: the characterization at the spec's concrete essence
scenario (3 + 1 + 1 = 5 for Strength). -/
theorem claim_C4_finalEssence_witness :
    calculateFinalEssence scenarioC4Character scenarioC4GameData "Strength"
      = scenarioC4Character.essence "Strength"
        + (if scenarioC4Character.originEssenceChoice = some "Strength"
           then 1 else 0)
        + roleEssenceAdjSum scenarioC4Character scenarioC4GameData "Strength" :=
  (claim_C4_finalEssence_order_independent scenarioC4Character
    scenarioC4GameData "Strength").2.2 (by decide)

/-- C5 counterexample: the claim says an unresolved rule-table reference
contributes zero for numbers, but a missing origin makes `maxHealth` fall
back to base 10, not 0: with Conditioning ranks 3 and an unresolved origin
key the result is 13, and 13 differs from the zero-contribution reading
0 + 3. -/
theorem claim_C5_counterexample :
    getMaxHealthForExport missingOriginCharacter emptyGameData = 13 ∧
    buildFinalSkills missingOriginCharacter emptyGameData "Conditioning" = 3 ∧
    (13 : Nat) ≠ 0 + 3 :=
  ⟨rfl, rfl, by decide⟩

/-- C5 (amended): the calculators never raise on unresolved rule-table
references and degrade to harmless fixed defaults — but not always zero: a
missing origin contributes the fallback base health 10; a missing role
contributes no essence adjustments and no starting skill ranks; a falsy or
unresolved role key yields the base power capacity 2; and an unknown role
with no shell perks yields the default Light/1 armor training. -/
theorem claim_C5_missing_defaults :
    (∀ (ch : Character) (gd : GameData),
        ch.origin.bind gd.origins = none →
          getMaxHealthForExport ch gd
            = 10 + buildFinalSkills ch gd "Conditioning") ∧
    (∀ (ch : Character) (gd : GameData) (e : String),
        lookupRoleTruthy ch gd = none →
          calculateFinalEssence ch gd e
            = ch.essence e + originBonus ch.originEssenceChoice e) ∧
    (∀ (ch : Character) (gd : GameData) (s : String),
        ch.role.bind gd.roles = none →
          buildFinalSkills ch gd s
            = ch.skills s + choiceBonus ch.roleSkillChoice s
              + levelUpGrants ch s) ∧
    (∀ (level : Int) (gd : GameData),
        getPowerCapacityForExport level none gd = 2) ∧
    (∀ (level : Int) (rk : String) (gd : GameData),
        gd.roles rk = none →
          getPowerCapacityForExport level (some rk) gd = 2) ∧
    (∀ (ch : Character) (gd : GameData) (r : String),
        ch.role = some r → armorByRole r = none → ch.selectedPerks = [] →
          getArmorTrainingForExport ch gd = defaultArmorTraining) := by
  refine ⟨?_, ?_, ?_, ?_, ?_, ?_⟩
  · intro ch gd h
    unfold getMaxHealthForExport
    rw [h]
  · intro ch gd e h
    rw [calculateFinalEssence_apply]
    unfold roleEssenceAdjSum
    rw [h]
    ring
  · intro ch gd s h
    rw [buildFinalSkills_apply]
    unfold roleStartingRanks
    rw [h]
    dsimp only
    omega
  · intro level gd
    rfl
  · intro level rk gd h
    unfold getPowerCapacityForExport
    dsimp only
    by_cases hrk : rk = ""
    · rw [if_pos hrk]
    · rw [if_neg hrk, h]
  · intro ch gd r hrole harm hperks
    rw [getArmorTrainingForExport_eq]
    unfold roleArmorBase
    rw [hrole]
    dsimp only
    rw [harm, hperks]
    rfl

/-- C5 witness: the amended default at a concrete unresolved origin. -/
theorem claim_C5_missing_defaults_witness :
    getMaxHealthForExport missingOriginCharacter emptyGameData
      = 10 + buildFinalSkills missingOriginCharacter emptyGameData
          "Conditioning" :=
  claim_C5_missing_defaults.1 missingOriginCharacter emptyGameData rfl

/-- C6: `skillDie` indexes the fixed progression at `ranks` when
`0 ≤ ranks < 7` and returns the first entry `"-"` for any out-of-range
ranks; in particular `skillDie(-1) = skillDie(0) = "-"` and
`skillDie(100) = "-"`. -/
theorem claim_C6_skillDie :
    (∀ r : Int, 0 ≤ r → r < 7 →
        getSkillDie r = DICE_PROGRESSION.getD r.toNat "") ∧
    (∀ r : Int, r < 0 ∨ 7 ≤ r → getSkillDie r = "-") ∧
    getSkillDie (-1) = "-" ∧ getSkillDie 0 = "-" ∧ getSkillDie 100 = "-" := by
  have hlen : (DICE_PROGRESSION.length : Int) = 7 := by decide
  refine ⟨?_, ?_, rfl, rfl, rfl⟩
  · intro r h0 h7
    unfold getSkillDie
    rw [hlen, if_neg (by omega)]
  · intro r h
    unfold getSkillDie
    rw [hlen, if_pos (by omega)]
    rfl

/-- C6 witness: an in-range and an out-of-range instantiation. -/
theorem claim_C6_skillDie_witness :
    getSkillDie 4 = DICE_PROGRESSION.getD (4 : Int).toNat "" ∧
    getSkillDie 100 = "-" :=
  ⟨claim_C6_skillDie.1 4 (by decide) (by decide),
   claim_C6_skillDie.2.1 100 (by decide)⟩

/-- C7: persistence round-trip — if `safeStorageSave` succeeds then a
subsequent `safeStorageLoad` of the same key recovers the saved value (for
any codec whose parse inverts its stringify), and `safeStorageLoad` returns
the caller's default when the key is absent or the stored value fails to
parse. -/
theorem claim_C7_storage_roundtrip :
    (∀ (α : Type) (codec : Codec α), codec.RoundTrips →
        ∀ (st : LocalStorage) (key : String) (X d : α),
          (safeStorageSave codec st key X).1 = true →
            safeStorageLoad codec (safeStorageSave codec st key X).2 key d
              = X) ∧
    (∀ (α : Type) (codec : Codec α) (st : LocalStorage) (key : String)
        (d : α), getItem st key = none → safeStorageLoad codec st key d = d) ∧
    (∀ (α : Type) (codec : Codec α) (st : LocalStorage) (key s : String)
        (d : α), getItem st key = some s → codec.parse s = none →
          safeStorageLoad codec st key d = d) := by
  refine ⟨?_, ?_, ?_⟩
  · intro α codec hrt st key X d hsave
    unfold safeStorageSave at hsave ⊢
    split at hsave
    next hser => simp at hsave
    next ser hser =>
      split at hsave
      next hset => simp at hsave
      next st2 hset =>
        dsimp only
        unfold setItem at hset
        by_cases hq : storageSize (storeA st.items key ser) ≤ st.quota
        · rw [if_pos hq] at hset
          cases hset
          unfold safeStorageLoad getItem
          dsimp only
          rw [lookupA_storeA_self]
          dsimp only
          rw [hrt X ser hser]
        · rw [if_neg hq] at hset
          cases hset
  · intro α codec st key d h
    unfold safeStorageLoad
    rw [h]
  · intro α codec st key s d h1 h2
    unfold safeStorageLoad
    rw [h1]
    dsimp only
    rw [h2]

/-- C7 witness: a concrete round-trip through a boolean codec. -/
theorem claim_C7_storage_roundtrip_witness :
    safeStorageLoad boolCodec
        (safeStorageSave boolCodec ⟨1000, []⟩ "prpgCharacter" true).2
        "prpgCharacter" false = true := by
  apply claim_C7_storage_roundtrip.1 Bool boolCodec ?_ ⟨1000, []⟩
    "prpgCharacter" true false ?_
  · intro a s h
    cases a <;> simp [boolCodec] at h <;> rw [← h] <;> rfl
  · rfl

/-- C8: `armorTraining` is monotone under armor-shell perks — adding any of
the three shell perks never lowers `maxBonus` — and the result never drops
below the role's own base armor bonus. -/
theorem claim_C8_armor_monotone :
    (∀ (ch : Character) (gd : GameData) (perk : String),
        perk ∈ ["Medium Armor Shell", "Heavy Armor Shell",
                "Ultra-Heavy Armor Shell"] →
          (getArmorTrainingForExport ch gd).maxBonus
            ≤ (getArmorTrainingForExport
                { ch with selectedPerks := ch.selectedPerks ++ [perk] }
                gd).maxBonus) ∧
    (∀ (ch : Character) (gd : GameData),
        (roleArmorBase ch).maxBonus
          ≤ (getArmorTrainingForExport ch gd).maxBonus) := by
  constructor
  · intro ch gd perk hperk
    have ht := roleArmorBase_maxBonus_le ch
    rw [getArmorTrainingForExport_eq, getArmorTrainingForExport_eq]
    have hbase :
        roleArmorBase { ch with selectedPerks := ch.selectedPerks ++ [perk] }
          = roleArmorBase ch := rfl
    rw [hbase]
    simp only [contains_append_single]
    simp only [List.mem_cons, List.not_mem_nil, or_false] at hperk
    rcases hperk with h | h | h
    · subst h
      rw [(by decide :
            (("Medium Armor Shell" : String) == "Medium Armor Shell") = true),
          (by decide :
            (("Heavy Armor Shell" : String) == "Medium Armor Shell") = false),
          (by decide :
            (("Ultra-Heavy Armor Shell" : String) == "Medium Armor Shell")
              = false)]
      simp only [Bool.or_true, Bool.or_false]
      cases hm : ch.selectedPerks.contains "Medium Armor Shell"
      · exact armorShellSteps_mono_m _ ht _ _
      · exact le_refl _
    · subst h
      rw [(by decide :
            (("Medium Armor Shell" : String) == "Heavy Armor Shell") = false),
          (by decide :
            (("Heavy Armor Shell" : String) == "Heavy Armor Shell") = true),
          (by decide :
            (("Ultra-Heavy Armor Shell" : String) == "Heavy Armor Shell")
              = false)]
      simp only [Bool.or_true, Bool.or_false]
      cases hh : ch.selectedPerks.contains "Heavy Armor Shell"
      · exact armorShellSteps_mono_h _ ht _ _
      · exact le_refl _
    · subst h
      rw [(by decide :
            (("Medium Armor Shell" : String) == "Ultra-Heavy Armor Shell")
              = false),
          (by decide :
            (("Heavy Armor Shell" : String) == "Ultra-Heavy Armor Shell")
              = false),
          (by decide :
            (("Ultra-Heavy Armor Shell" : String) == "Ultra-Heavy Armor Shell")
              = true)]
      simp only [Bool.or_true, Bool.or_false]
      cases hu : ch.selectedPerks.contains "Ultra-Heavy Armor Shell"
      · exact armorShellSteps_mono_u _ ht _ _
      · exact le_refl _
  · intro ch gd
    rw [getArmorTrainingForExport_eq]
    exact armorShellSteps_base_le _ (roleArmorBase_maxBonus_le ch) _ _ _

/-- C8 witness: adding the Ultra-Heavy shell to a bare character. -/
theorem claim_C8_armor_monotone_witness :
    (getArmorTrainingForExport emptyCharacter emptyGameData).maxBonus
      ≤ (getArmorTrainingForExport
          { emptyCharacter with
              selectedPerks :=
                emptyCharacter.selectedPerks ++ ["Ultra-Heavy Armor Shell"] }
          emptyGameData).maxBonus :=
  claim_C8_armor_monotone.1 emptyCharacter emptyGameData
    "Ultra-Heavy Armor Shell" (by decide)

/-- C9: per-field writes tolerate absent destination fields — writing a text
or checkbox value to a form with no field of that name is a no-op and never
raises (the model is total), a present text field receives the written
value, and the Zord export on a form lacking "Zord Health" writes every
other field exactly as it would on the full form. -/
theorem claim_C9_missing_fields :
    (∀ (form : Form) (n v : String),
        lookupA form.textFields n = none → setTextField form n v = form) ∧
    (∀ (form : Form) (n : String) (b : Bool),
        lookupA form.checkBoxes n = none → setCheckBox form n b = form) ∧
    (∀ (form : Form) (n v w : String),
        lookupA form.textFields n = some w →
          lookupA (setTextField form n v).textFields n = some v) ∧
    (∀ (form : Form) (ch : Character) (gd : GameData),
        fillZord (removeTextField form "Zord Health") ch gd
          = removeTextField (fillZord form ch gd) "Zord Health") := by
  refine ⟨?_, ?_, ?_, ?_⟩
  · intro form n v h
    unfold setTextField
    rw [h]
  · intro form n b h
    unfold setCheckBox
    rw [h]
  · intro form n v w h
    unfold setTextField
    rw [h]
    exact lookupA_writeA_self form.textFields h v
  · intro form ch gd
    rcases hz : ch.zord with _ | zord
    · simp only [fillZord, hz]
    · simp only [fillZord, hz, setTextField_removeTextField]

/-- C9 witness: writing the absent "Zord Health" field is a no-op. -/
theorem claim_C9_missing_fields_witness :
    setTextField sampleFormNoZordHealth "Zord Health" "6"
      = sampleFormNoZordHealth :=
  claim_C9_missing_fields.1 sampleFormNoZordHealth "Zord Health" "6" rfl

/-- C10: `sanitizeHTML` is not idempotent — for every string containing one
of the five escaped characters a second pass differs from the first (the
introduced ampersand is re-escaped), `sanitizeHTML("<") = "&lt;"` while
`sanitizeHTML("&lt;") = "&amp;lt;"`, and the second pass is the identity
exactly when the string contains none of `< > & " '`. -/
theorem claim_C10_sanitize_not_idempotent :
    (∀ s : String, (∃ c ∈ s.data, c ∈ sanitizeChars) →
        sanitizeHTML (sanitizeHTML s) ≠ sanitizeHTML s) ∧
    sanitizeHTML "<" = "&lt;" ∧
    sanitizeHTML "&lt;" = "&amp;lt;" ∧
    (∀ s : String,
        sanitizeHTML (sanitizeHTML s) = sanitizeHTML s ↔
          ∀ c ∈ s.data, c ∉ sanitizeChars) := by
  have key : ∀ s : String, (∃ c ∈ s.data, c ∈ sanitizeChars) →
      sanitizeHTML (sanitizeHTML s) ≠ sanitizeHTML s := by
    intro s h heq
    have hdata : sanitizeList (sanitizeList s.data) = sanitizeList s.data :=
      congrArg String.data heq
    exact sanitizeList_ne_of_mem h hdata
  refine ⟨key, rfl, rfl, ?_⟩
  intro s
  constructor
  · intro heq
    by_contra hcon
    push_neg at hcon
    exact key s (by simpa using hcon) heq
  · intro hnone
    unfold sanitizeHTML
    dsimp only
    have hin : sanitizeList s.data = s.data :=
      sanitizeList_of_forall_not_mem hnone
    rw [hin, hin]

/-- C10 witness: the inequality at the concrete input `"<"`. -/
theorem claim_C10_sanitize_not_idempotent_witness :
    sanitizeHTML (sanitizeHTML "<") ≠ sanitizeHTML "<" :=
  claim_C10_sanitize_not_idempotent.1 "<" ⟨'<', by decide, by decide⟩

end PRCC
